import Mathlib

/-!
# Verification of the performance-api admission and batched-durability core

A shallow embedding of `src/index.ts`: the bounded Record Queue, the bounded
Dead-Letter Queue, the admission gate (`handleRequest`, POST `/v1/events`
branch), the two flush cycles (`flushQueue`, `flushDeadLetters`), the
dead-letter routing helper (`enqueueDeadLetter`), and the latency histogram
(`recordLatency`, `percentile`).

Modelling decisions:
* Timestamps (`Date.now()`, `new Date()`) are `Nat` parameters supplied by the
  environment.
* Latency values and percentile arguments are `ℚ` (the source uses JS floats
  from `performance.now()`; the code only adds and compares them, which ℚ
  models exactly on the rational inputs we consider).
* The outcome of an awaited database insert is an `Except String Unit`
  parameter: `.ok ()` for success, `.error msg` for a failure whose
  `formatError` message is `msg`.
* The body read `await req.text()` is an `Except String String` parameter:
  `.ok text`, or `.error cause` with `formatError` result `cause`.
* `console.error` warnings are modelled by appending the logged line to a
  `log` field of the state, so operator-visible warnings are observable.
* `crypto.randomUUID()` is not modelled: the resolved trace id (header value
  or generated UUID) is a `String` parameter.
-/

/-- `RequestRecord` from `src/index.ts` lines 23-29. -/
structure RequestRecord where
  trace_id : String
  received_at : Nat
  method : String
  path : String
  payload : Option String
deriving DecidableEq, Repr

/-- `DeadLetterRecord` from `src/index.ts` lines 31-33: a `RequestRecord`
plus an `error` string. -/
structure DeadLetterRecord extends RequestRecord where
  error : String
deriving DecidableEq, Repr

/-- Build a `DeadLetterRecord` from a `RequestRecord` and an error string,
as the spread `{ ...record, error }` does in the source. -/
def toDead (r : RequestRecord) (e : String) : DeadLetterRecord :=
  { toRequestRecord := r, error := e }

/-- The configuration surface read from the environment at startup
(`src/index.ts` lines 17-21); only the fields the core logic consults. -/
structure Config where
  batchSize : Nat
  maxQueueSize : Nat
  maxDeadQueueSize : Nat
deriving DecidableEq, Repr

/-- JavaScript `String.prototype.slice(0, n)`: the first `n` characters of
the string (all of it when shorter), used by the source to truncate error
strings to 1000 characters. -/
def sliceTo (s : String) (n : Nat) : String := ⟨s.data.take n⟩

/-- `latencyBucketsMs` from `src/index.ts` line 49. -/
def latencyBucketsMs : List ℚ :=
  [1, 2, 5, 10, 20, 50, 100, 200, 500, 1000, 2000, 5000, 10000]

/-- The mutable module-level state of `src/index.ts` lines 35-52, plus a
`log` of `console.error` warning lines to make them observable. -/
structure ApiState where
  pending : List RequestRecord
  deadLetters : List DeadLetterRecord
  flushing : Bool
  deadFlushing : Bool
  totalReceived : Nat
  totalAccepted : Nat
  totalRejected : Nat
  totalDeadLetters : Nat
  totalDbErrors : Nat
  lastFlushAt : Option Nat
  lastDeadFlushAt : Option Nat
  lastFlushError : Option String
  lastDeadFlushError : Option String
  latencyHistogram : List Nat
  latencySumMs : ℚ
  latencyCount : Nat
  log : List String

/-- The initial state (`src/index.ts` lines 35-52): empty queues, zero
counters, `latencyHistogram` of length `latencyBucketsMs.length + 1`. -/
def initState : ApiState where
  pending := []
  deadLetters := []
  flushing := false
  deadFlushing := false
  totalReceived := 0
  totalAccepted := 0
  totalRejected := 0
  totalDeadLetters := 0
  totalDbErrors := 0
  lastFlushAt := none
  lastDeadFlushAt := none
  lastFlushError := none
  lastDeadFlushError := none
  latencyHistogram := List.replicate (latencyBucketsMs.length + 1) 0
  latencySumMs := 0
  latencyCount := 0
  log := []

/-- `recordLatency` from `src/index.ts` lines 321-330: increment the first
bucket whose bound is ≥ the value (`findIndex` with `valueMs <= limit`), or
the trailing overflow slot when none matches (`List.findIdx` returns the
list length exactly when `findIndex` returns `-1`); accumulate sum and
count. -/
def recordLatency (valueMs : ℚ) (s : ApiState) : ApiState :=
  let bucketIndex := latencyBucketsMs.findIdx (fun limit => decide (valueMs ≤ limit))
  { s with
    latencyHistogram :=
      s.latencyHistogram.set bucketIndex (s.latencyHistogram.getD bucketIndex 0 + 1)
    latencySumMs := s.latencySumMs + valueMs
    latencyCount := s.latencyCount + 1 }

/-- The scan loop of `percentile` (`src/index.ts` lines 338-343): walk the
histogram accumulating `cumulative`; at the first slot where
`cumulative >= threshold` return `latencyBucketsMs[i]` when `i` is a real
bucket, else the largest bound; if the loop finishes, the largest bound. -/
def percentileGo (hist : List Nat) (i : Nat) (cumulative : Nat) (threshold : ℚ) : ℚ :=
  match hist with
  | [] => latencyBucketsMs.getLastD 0
  | h :: rest =>
    let c := cumulative + h
    if threshold ≤ (c : ℚ) then
      latencyBucketsMs.getD i (latencyBucketsMs.getLastD 0)
    else
      percentileGo rest (i + 1) c threshold

/-- `percentile` from `src/index.ts` lines 332-345. -/
def percentile (targetPercentile : ℚ) (s : ApiState) : ℚ :=
  if s.latencyCount = 0 then 0
  else percentileGo s.latencyHistogram 0 0 ((s.latencyCount : ℚ) * targetPercentile)

/-- `enqueueDeadLetter` from `src/index.ts` lines 300-311: when the
Dead-Letter Queue is at or over capacity, log a warning and drop the record;
otherwise increment `totalDeadLetters` and append, truncating the error
string to 1000 characters. -/
def enqueueDeadLetter (cfg : Config) (s : ApiState) (record : RequestRecord)
    (error : String) : ApiState :=
  if s.deadLetters.length ≥ cfg.maxDeadQueueSize then
    { s with log := s.log ++ ["Dead letter queue overflow, dropping record."] }
  else
    { s with
      totalDeadLetters := s.totalDeadLetters + 1
      deadLetters := s.deadLetters ++ [toDead record (sliceTo error 1000)] }

/-- The POST `/v1/events` branch of `handleRequest` (`src/index.ts` lines
156-227).  Returns the state after the request together with the HTTP
status code.  `body` is the outcome of `await req.text()`; `latencyMs` the
elapsed time recorded by the `finally` block on every path. -/
def handleRequest (cfg : Config) (s : ApiState) (traceId : String) (now : Nat)
    (method path : String) (body : Except String String) (latencyMs : ℚ) :
    ApiState × Nat :=
  let s1 := { s with totalReceived := s.totalReceived + 1 }
  match body with
  | .error cause =>
    let s2 := enqueueDeadLetter cfg s1
      { trace_id := traceId, received_at := now, method := method, path := path
        payload := none }
      ("body_read_failed: " ++ cause)
    let s3 := { s2 with totalRejected := s2.totalRejected + 1 }
    (recordLatency latencyMs s3, 400)
  | .ok text =>
    let payload : Option String := if text.length = 0 then none else some text
    let record : RequestRecord :=
      { trace_id := traceId, received_at := now, method := method, path := path
        payload := payload }
    if s1.pending.length ≥ cfg.maxQueueSize then
      let s2 := enqueueDeadLetter cfg s1 record "queue_overflow"
      let s3 := { s2 with totalRejected := s2.totalRejected + 1 }
      (recordLatency latencyMs s3, 503)
    else
      let s2 := { s1 with
        pending := s1.pending ++ [record]
        totalAccepted := s1.totalAccepted + 1 }
      (recordLatency latencyMs s2, 202)

/-- `flushQueue` from `src/index.ts` lines 232-257.  `result` is the outcome
of the awaited batch insert into `requests`; `now` is `Date.now()` at the
`finally` block.  The in-flight flag is set and cleared within the same
atomic step, so it ends `false` whenever the guard passed. -/
def flushQueue (cfg : Config) (s : ApiState) (result : Except String Unit)
    (now : Nat) : ApiState :=
  if s.flushing = true ∨ s.pending = [] then s
  else
    let batch := s.pending.take cfg.batchSize
    let rest := s.pending.drop cfg.batchSize
    match result with
    | .ok _ =>
      { s with pending := rest, lastFlushError := none
               lastFlushAt := some now, flushing := false }
    | .error msg =>
      { s with pending := rest
               totalDbErrors := s.totalDbErrors + 1
               lastFlushError := some msg
               deadLetters := s.deadLetters ++
                 batch.map (fun r => toDead r ("insert_failed: " ++ msg))
               lastFlushAt := some now, flushing := false }

/-- `flushDeadLetters` from `src/index.ts` lines 259-298.  On a failed
insert into `dead_letters`, each batch record's error gets the second
failure reason appended (truncated to 1000 characters) and the batch is
reinserted at the front only if the resulting length fits, else it is
dropped whole and a warning logged. -/
def flushDeadLetters (cfg : Config) (s : ApiState) (result : Except String Unit)
    (now : Nat) : ApiState :=
  if s.deadFlushing = true ∨ s.deadLetters = [] then s
  else
    let batch := s.deadLetters.take cfg.batchSize
    let rest := s.deadLetters.drop cfg.batchSize
    match result with
    | .ok _ =>
      { s with deadLetters := rest, lastDeadFlushError := none
               lastDeadFlushAt := some now, deadFlushing := false }
    | .error msg =>
      let requeue := batch.map (fun r =>
        { r with error := sliceTo (r.error ++ "; dead_letter_insert_failed: " ++ msg) 1000 })
      let newDead :=
        if rest.length + requeue.length ≤ cfg.maxDeadQueueSize then requeue ++ rest
        else rest
      let newLog :=
        if rest.length + requeue.length ≤ cfg.maxDeadQueueSize then s.log
        else s.log ++ ["Dead letter queue overflow, dropping records."]
      { s with deadLetters := newDead
               totalDbErrors := s.totalDbErrors + 1
               lastDeadFlushError := some msg
               lastDeadFlushAt := some now, deadFlushing := false
               log := newLog }

/-- One externally triggered step of the system: an admission attempt
(`POST /v1/events`), a Record-Queue flush tick, or a dead-letter flush
tick.  Database outcomes and timestamps are carried by the event. -/
inductive Event where
  | post (traceId : String) (now : Nat) (method path : String)
      (body : Except String String) (latencyMs : ℚ)
  | flush (result : Except String Unit) (now : Nat)
  | deadFlush (result : Except String Unit) (now : Nat)

/-- Interpret one event against the state. -/
def step (cfg : Config) (s : ApiState) : Event → ApiState
  | .post traceId now method path body latencyMs =>
    (handleRequest cfg s traceId now method path body latencyMs).1
  | .flush result now => flushQueue cfg s result now
  | .deadFlush result now => flushDeadLetters cfg s result now

/-- Run a sequence of events from a state. -/
def run (cfg : Config) (s : ApiState) (events : List Event) : ApiState :=
  events.foldl (step cfg) s

/-- Cumulative histogram count up to and including slot `k`. -/
def cumCount (hist : List Nat) (k : Nat) : Nat := (hist.take (k + 1)).sum

/-- A configuration with `maxQueueSize = 2` for the three-admission
scenario of §8. -/
def cfgScenario : Config := ⟨1000, 2, 100000⟩

/-- Three well-formed admissions with no flush in between. -/
def evsScenario : List Event :=
  [.post "a" 0 "POST" "/api/v1/events" (.ok "p1") 0,
   .post "b" 0 "POST" "/api/v1/events" (.ok "p2") 0,
   .post "c" 0 "POST" "/api/v1/events" (.ok "p3") 0]

/-- A tight configuration (`batchSize = 1`, `maxQueueSize = 1`,
`maxDeadQueueSize = 1`) used to exhibit Dead-Letter Queue overflow through
the Record-Queue flush failure path. -/
def cfgTight : Config := ⟨1, 1, 1⟩

/-- Accept one record, overflow-reject a second (filling the Dead-Letter
Queue to its capacity of 1), then run a Record-Queue flush whose insert
fails: the failed batch is appended to the Dead-Letter Queue unchecked. -/
def evsOverflow : List Event :=
  [.post "a" 0 "POST" "/api/v1/events" (.ok "x") 0,
   .post "b" 0 "POST" "/api/v1/events" (.ok "y") 0,
   .flush (.error "boom") 7]

/-- The state after recording the latency samples `[1, 3, 1000, 50000]`
from the §8 histogram scenario. -/
def histScenario : ApiState :=
  List.foldl (fun s v => recordLatency v s) initState [1, 3, 1000, 50000]

/-- The state after recording one latency sample of 50000 ms, which lands
in the overflow slot past every finite bucket bound. -/
def overflowSample : ApiState := recordLatency 50000 initState

/-- The property the spec ascribes to `percentile` (§4.4, claim wording):
it "computes the smallest bucket bound such that the cumulative count up to
and including that bucket is ≥ `p * totalCount`; returns 0 when no samples
recorded". -/
def percentileClaimedSpec (p : ℚ) (s : ApiState) : Prop :=
  if s.latencyCount = 0 then percentile p s = 0
  else ∃ i, i < latencyBucketsMs.length ∧
    percentile p s = latencyBucketsMs.getD i 0 ∧
    (s.latencyCount : ℚ) * p ≤ (cumCount s.latencyHistogram i : ℚ) ∧
    ∀ j, j < latencyBucketsMs.length →
      (s.latencyCount : ℚ) * p ≤ (cumCount s.latencyHistogram j : ℚ) →
      latencyBucketsMs.getD i 0 ≤ latencyBucketsMs.getD j 0

/-- A sample record used by concrete witnesses. -/
def sampleRecord : RequestRecord :=
  { trace_id := "t", received_at := 0, method := "POST"
    path := "/api/v1/events", payload := some "x" }

/-- A sample dead-letter record used by concrete witnesses. -/
def sampleDead : DeadLetterRecord := toDead sampleRecord "queue_overflow"

/-! ## Helper lemmas -/

theorem recordLatency_pending (v : ℚ) (s : ApiState) :
    (recordLatency v s).pending = s.pending := rfl

theorem recordLatency_deadLetters (v : ℚ) (s : ApiState) :
    (recordLatency v s).deadLetters = s.deadLetters := rfl

theorem recordLatency_totalReceived (v : ℚ) (s : ApiState) :
    (recordLatency v s).totalReceived = s.totalReceived := rfl

theorem enqueueDeadLetter_pending (cfg : Config) (s : ApiState)
    (r : RequestRecord) (e : String) :
    (enqueueDeadLetter cfg s r e).pending = s.pending := by
  unfold enqueueDeadLetter
  split <;> rfl

theorem enqueueDeadLetter_totalReceived (cfg : Config) (s : ApiState)
    (r : RequestRecord) (e : String) :
    (enqueueDeadLetter cfg s r e).totalReceived = s.totalReceived := by
  unfold enqueueDeadLetter
  split <;> rfl

theorem flushDeadLetters_pending (cfg : Config) (s : ApiState)
    (result : Except String Unit) (now : Nat) :
    (flushDeadLetters cfg s result now).pending = s.pending := by
  unfold flushDeadLetters
  split
  · rfl
  · cases result <;> rfl

theorem handleRequest_pending_bound (cfg : Config) (s : ApiState) (t : String)
    (now : Nat) (m p : String) (body : Except String String) (lat : ℚ)
    (h : s.pending.length ≤ cfg.maxQueueSize) :
    (handleRequest cfg s t now m p body lat).1.pending.length ≤
      cfg.maxQueueSize := by
  cases body with
  | error cause =>
    simp only [handleRequest, recordLatency_pending, enqueueDeadLetter_pending]
    exact h
  | ok text =>
    simp only [handleRequest]
    split
    next hge =>
      simp only [recordLatency_pending, enqueueDeadLetter_pending]
      exact h
    next hge =>
      have hlt : ¬s.pending.length ≥ cfg.maxQueueSize := hge
      simp only [recordLatency_pending, List.length_append, List.length_cons,
        List.length_nil]
      omega

theorem step_pending_bound (cfg : Config) (s : ApiState) (ev : Event)
    (h : s.pending.length ≤ cfg.maxQueueSize) :
    (step cfg s ev).pending.length ≤ cfg.maxQueueSize := by
  cases ev with
  | post t now m p body lat =>
    exact handleRequest_pending_bound cfg s t now m p body lat h
  | flush result now =>
    show (flushQueue cfg s result now).pending.length ≤ cfg.maxQueueSize
    unfold flushQueue
    split
    · exact h
    · cases result with
      | ok u =>
        simp only [List.length_drop]
        omega
      | error msg =>
        simp only [List.length_drop]
        omega
  | deadFlush result now =>
    show (flushDeadLetters cfg s result now).pending.length ≤ cfg.maxQueueSize
    rw [flushDeadLetters_pending]
    exact h

theorem run_pending_bound (cfg : Config) (events : List Event) (s : ApiState)
    (h : s.pending.length ≤ cfg.maxQueueSize) :
    (run cfg s events).pending.length ≤ cfg.maxQueueSize := by
  induction events generalizing s with
  | nil => exact h
  | cons ev rest ih => exact ih (step cfg s ev) (step_pending_bound cfg s ev h)

theorem findIdx_char {α : Type} (p : α → Bool) (d : α) (l : List α) :
    (l.findIdx p = l.length ∧ ∀ j, j < l.length → p (l.getD j d) = false) ∨
    (l.findIdx p < l.length ∧ p (l.getD (l.findIdx p) d) = true ∧
      ∀ j, j < l.findIdx p → p (l.getD j d) = false) := by
  induction l with
  | nil =>
    exact Or.inl ⟨rfl, fun j hj => absurd hj (Nat.not_lt_zero j)⟩
  | cons a t ih =>
    by_cases hpa : p a = true
    · refine Or.inr ?_
      rw [List.findIdx_cons, hpa, cond_true]
      exact ⟨Nat.succ_pos t.length, hpa,
        fun j hj => absurd hj (Nat.not_lt_zero j)⟩
    · have hpa2 : p a = false := by
        cases hb : p a
        · rfl
        · exact absurd hb hpa
      rw [List.findIdx_cons, hpa2, cond_false]
      rcases ih with ⟨h1, h2⟩ | ⟨h1, h2, h3⟩
      · refine Or.inl ⟨by rw [h1]; rfl, fun j hj => ?_⟩
        cases j with
        | zero => exact hpa2
        | succ j =>
          have hjt : j < t.length := by
            simp only [List.length_cons] at hj
            omega
          simpa using h2 j hjt
      · refine Or.inr ⟨?_, by simpa using h2, fun j hj => ?_⟩
        · simp only [List.length_cons]
          omega
        · cases j with
          | zero => exact hpa2
          | succ j => simpa using h3 j (by omega)

/-! ## Claim theorems -/

/-- **C1 (counterexample).** The Dead-Letter Queue bound is not enforced at
every insertion point: with `maxQueueSize = maxDeadQueueSize = batchSize = 1`,
accept one record, overflow-reject a second (filling the Dead-Letter Queue
to its capacity 1), then run a Record-Queue flush whose insert fails — the
failed batch is appended to the Dead-Letter Queue without a capacity check,
leaving it at length 2 > `maxDeadQueueSize` = 1. -/
theorem queue_bound_claim_false :
    cfgTight.maxDeadQueueSize = 1 ∧
    (run cfgTight initState evsOverflow).deadLetters.length = 2 :=
  ⟨rfl, by rfl⟩

/-- **C1 (amended).** The Record Queue length never exceeds `maxQueueSize`
in any reachable state; the Dead-Letter Queue bound is enforced at
admission-time dead-letter routing (`enqueueDeadLetter`) and preserved by
the dead-letter flush (including its requeue-on-failure path) — but not by
the Record-Queue flush failure path, which appends without a capacity
check (see the counterexample). -/
theorem queue_bounds_amended (cfg : Config) :
    (∀ events, (run cfg initState events).pending.length ≤ cfg.maxQueueSize) ∧
    (∀ s r e, s.deadLetters.length ≤ cfg.maxDeadQueueSize →
      (enqueueDeadLetter cfg s r e).deadLetters.length ≤ cfg.maxDeadQueueSize) ∧
    (∀ s result now, s.deadLetters.length ≤ cfg.maxDeadQueueSize →
      (flushDeadLetters cfg s result now).deadLetters.length ≤
        cfg.maxDeadQueueSize) := by
  refine ⟨fun events => run_pending_bound cfg events initState (by simp [initState]),
    fun s r e h => ?_, fun s result now h => ?_⟩
  · unfold enqueueDeadLetter
    split
    next => exact h
    next hge =>
      have hlt : ¬s.deadLetters.length ≥ cfg.maxDeadQueueSize := hge
      simp only [List.length_append, List.length_cons, List.length_nil]
      omega
  · unfold flushDeadLetters
    split
    next => exact h
    next =>
      cases result with
      | ok u =>
        simp only [List.length_drop]
        omega
      | error msg =>
        dsimp only
        split
        next hfit =>
          simp only [List.length_append, List.length_map, List.length_take,
            List.length_drop] at hfit ⊢
          omega
        next hnofit =>
          simp only [List.length_drop]
          omega

/-- Witness for the amended C1 at concrete inputs, discharging each bound
hypothesis. -/
theorem queue_bounds_amended_witness :
    (run cfgTight initState evsOverflow).pending.length ≤
      cfgTight.maxQueueSize ∧
    (enqueueDeadLetter cfgTight initState sampleRecord
        "e").deadLetters.length ≤ cfgTight.maxDeadQueueSize ∧
    (flushDeadLetters cfgTight { initState with deadLetters := [sampleDead] }
        (.error "x") 0).deadLetters.length ≤ cfgTight.maxDeadQueueSize := by
  have h := queue_bounds_amended cfgTight
  exact ⟨h.1 evsOverflow,
    h.2.1 initState sampleRecord "e" (by decide),
    h.2.2 { initState with deadLetters := [sampleDead] } (.error "x") 0
      (by decide)⟩

/-- **C8.** Invoking `flushQueue` (respectively `flushDeadLetters`) while
its queue is empty or while a flush for that queue is already in flight
leaves the entire state unchanged — in particular no queue contents,
counters, error strings, or `lastFlushAt` / `lastDeadFlushAt` timestamps
are modified. -/
theorem flush_noop (cfg : Config) (s : ApiState) (result : Except String Unit)
    (now : Nat) :
    (s.flushing = true ∨ s.pending = [] → flushQueue cfg s result now = s) ∧
    (s.deadFlushing = true ∨ s.deadLetters = [] →
      flushDeadLetters cfg s result now = s) := by
  constructor
  · intro hq
    unfold flushQueue
    rw [if_pos hq]
  · intro hd
    unfold flushDeadLetters
    rw [if_pos hd]

/-- Witness for C8: `flushQueue` on a state whose Record Queue is empty
while the Dead-Letter Queue is non-empty and not dead-flushing is a no-op,
and symmetrically `flushDeadLetters` on a state whose Dead-Letter Queue is
empty while the Record Queue is non-empty. -/
theorem flush_noop_witness :
    flushQueue cfgTight { initState with deadLetters := [sampleDead] }
        (.ok ()) 5 =
      { initState with deadLetters := [sampleDead] } ∧
    flushDeadLetters cfgTight { initState with pending := [sampleRecord] }
        (.ok ()) 5 =
      { initState with pending := [sampleRecord] } :=
  ⟨(flush_noop cfgTight { initState with deadLetters := [sampleDead] }
      (.ok ()) 5).1 (Or.inr rfl),
   (flush_noop cfgTight { initState with pending := [sampleRecord] }
      (.ok ()) 5).2 (Or.inr rfl)⟩

/-- **C9.** `totalDeadLetters` counts only successful admission-time
dead-letter enqueues: neither the Record-Queue flush (whose failure path
appends to the Dead-Letter Queue) nor the dead-letter flush (whose failure
path reinserts the batch) ever changes `totalDeadLetters`. -/
theorem flush_preserves_totalDeadLetters (cfg : Config) (s : ApiState)
    (result : Except String Unit) (now : Nat) :
    (flushQueue cfg s result now).totalDeadLetters = s.totalDeadLetters ∧
    (flushDeadLetters cfg s result now).totalDeadLetters = s.totalDeadLetters := by
  constructor
  · unfold flushQueue
    split
    · rfl
    · cases result <;> rfl
  · unfold flushDeadLetters
    split
    · rfl
    · cases result <;> rfl

/-- Witness for C9 at a concrete failing flush over a non-empty queue. -/
theorem flush_preserves_totalDeadLetters_witness :
    (flushQueue cfgTight { initState with pending := [sampleRecord] }
        (.error "boom") 3).totalDeadLetters = 0 ∧
    (flushDeadLetters cfgTight { initState with deadLetters := [sampleDead] }
        (.error "boom") 3).totalDeadLetters = 0 :=
  ⟨(flush_preserves_totalDeadLetters cfgTight
      { initState with pending := [sampleRecord] } (.error "boom") 3).1,
   (flush_preserves_totalDeadLetters cfgTight
      { initState with deadLetters := [sampleDead] } (.error "boom") 3).2⟩

/-- **C5.** Admission-time dead-letter routing is capacity-checked: when the
Dead-Letter Queue is at capacity the record is dropped entirely — neither
queue changes, only a warning line is emitted — and `totalDeadLetters` is
incremented if and only if the enqueue succeeds (i.e. the queue was below
capacity, in which case the record is appended with its error truncated to
1000 characters). -/
theorem enqueueDeadLetter_spec (cfg : Config) (s : ApiState)
    (r : RequestRecord) (e : String) :
    (cfg.maxDeadQueueSize ≤ s.deadLetters.length →
      enqueueDeadLetter cfg s r e =
        { s with log := s.log ++ ["Dead letter queue overflow, dropping record."] }) ∧
    (s.deadLetters.length < cfg.maxDeadQueueSize →
      enqueueDeadLetter cfg s r e =
        { s with totalDeadLetters := s.totalDeadLetters + 1
                 deadLetters := s.deadLetters ++ [toDead r (sliceTo e 1000)] }) ∧
    ((enqueueDeadLetter cfg s r e).totalDeadLetters = s.totalDeadLetters + 1 ↔
      s.deadLetters.length < cfg.maxDeadQueueSize) := by
  refine ⟨fun h => ?_, fun h => ?_, ?_⟩
  · unfold enqueueDeadLetter
    rw [if_pos h]
  · unfold enqueueDeadLetter
    rw [if_neg (by omega)]
  · unfold enqueueDeadLetter
    split
    next hge =>
      constructor
      · intro heq
        have h2 : s.totalDeadLetters = s.totalDeadLetters + 1 := heq
        omega
      · intro hlt
        omega
    next hge =>
      have hlt : s.deadLetters.length < cfg.maxDeadQueueSize := by omega
      exact iff_of_true rfl hlt

/-- Witness for C5: a full Dead-Letter Queue of capacity 1 drops the
record; an empty one accepts it. -/
theorem enqueueDeadLetter_spec_witness :
    (enqueueDeadLetter cfgTight { initState with deadLetters := [sampleDead] }
        sampleRecord "queue_overflow" =
      { { initState with deadLetters := [sampleDead] } with
          log := ["Dead letter queue overflow, dropping record."] }) ∧
    (enqueueDeadLetter cfgTight initState sampleRecord "queue_overflow" =
      { initState with totalDeadLetters := 1, deadLetters := [sampleDead] }) := by
  constructor
  · exact (enqueueDeadLetter_spec cfgTight
      { initState with deadLetters := [sampleDead] } sampleRecord
      "queue_overflow").1 (by decide)
  · have h := (enqueueDeadLetter_spec cfgTight initState sampleRecord
      "queue_overflow").2.1 (by decide)
    simpa using h

/-- **C2.** When a Record-Queue flush's durable batch-insert fails on a
non-empty queue (with no flush in flight), `totalDbErrors` is incremented by
one, the failure message becomes the last-error state, the removed batch is
gone from the Record Queue regardless of the write outcome (the queue
shrinks by the batch size), and every record of the failed batch is appended
to the Dead-Letter Queue tail with error `"insert_failed: "` followed by the
failure cause. -/
theorem flushQueue_failure (cfg : Config) (s : ApiState) (msg : String)
    (now : Nat) (hf : s.flushing = false) (hp : s.pending ≠ []) :
    (flushQueue cfg s (.error msg) now).totalDbErrors = s.totalDbErrors + 1 ∧
    (flushQueue cfg s (.error msg) now).lastFlushError = some msg ∧
    (flushQueue cfg s (.error msg) now).pending = s.pending.drop cfg.batchSize ∧
    (flushQueue cfg s (.error msg) now).pending.length =
      s.pending.length - (s.pending.take cfg.batchSize).length ∧
    (flushQueue cfg s (.error msg) now).deadLetters =
      s.deadLetters ++
        (s.pending.take cfg.batchSize).map
          (fun r => toDead r ("insert_failed: " ++ msg)) := by
  have hcond : ¬(s.flushing = true ∨ s.pending = []) := by
    simp [hf, hp]
  unfold flushQueue
  rw [if_neg hcond]
  refine ⟨rfl, rfl, rfl, ?_, rfl⟩
  simp only [List.length_drop, List.length_take]
  omega

/-- Witness for C2: a failing flush over a queue of one record with
`batchSize = 1`. -/
theorem flushQueue_failure_witness :
    (flushQueue cfgTight { initState with pending := [sampleRecord] }
        (.error "boom") 3).totalDbErrors = 1 ∧
    (flushQueue cfgTight { initState with pending := [sampleRecord] }
        (.error "boom") 3).deadLetters =
      [toDead sampleRecord "insert_failed: boom"] := by
  have h := flushQueue_failure cfgTight
    { initState with pending := [sampleRecord] } "boom" 3 rfl (by decide)
  exact ⟨h.1, by simpa using h.2.2.2.2⟩

/-- **C3.** When a dead-letter flush's durable write fails on a non-empty
Dead-Letter Queue (with no dead flush in flight), `totalDbErrors` is
incremented and the failure message recorded; each batch record's error
field has the second failure reason appended with the combined string
truncated to 1000 characters, and the whole batch is reinserted at the
front of the Dead-Letter Queue exactly when the resulting total length is
≤ `maxDeadQueueSize` — otherwise the entire batch is dropped (never
partially re-enqueued) and an overflow warning is logged.  Either way the
queue never ends longer than it began nor past `maxDeadQueueSize` if it
started within it. -/
theorem flushDeadLetters_failure (cfg : Config) (s : ApiState) (msg : String)
    (now : Nat) (hf : s.deadFlushing = false) (hp : s.deadLetters ≠ []) :
    (flushDeadLetters cfg s (.error msg) now).totalDbErrors = s.totalDbErrors + 1 ∧
    (flushDeadLetters cfg s (.error msg) now).lastDeadFlushError = some msg ∧
    (flushDeadLetters cfg s (.error msg) now).deadLetters =
      (if (s.deadLetters.drop cfg.batchSize).length +
            (s.deadLetters.take cfg.batchSize).length ≤ cfg.maxDeadQueueSize then
        (s.deadLetters.take cfg.batchSize).map
            (fun r => { r with
              error := sliceTo (r.error ++ "; dead_letter_insert_failed: " ++ msg) 1000 }) ++
          s.deadLetters.drop cfg.batchSize
      else s.deadLetters.drop cfg.batchSize) ∧
    (flushDeadLetters cfg s (.error msg) now).log =
      (if (s.deadLetters.drop cfg.batchSize).length +
            (s.deadLetters.take cfg.batchSize).length ≤ cfg.maxDeadQueueSize then s.log
      else s.log ++ ["Dead letter queue overflow, dropping records."]) ∧
    (s.deadLetters.length ≤ cfg.maxDeadQueueSize →
      (flushDeadLetters cfg s (.error msg) now).deadLetters.length ≤
        cfg.maxDeadQueueSize) := by
  have hcond : ¬(s.deadFlushing = true ∨ s.deadLetters = []) := by
    simp [hf, hp]
  unfold flushDeadLetters
  rw [if_neg hcond]
  refine ⟨rfl, rfl, ?_, ?_, ?_⟩
  · simp only [List.length_map]
  · simp only [List.length_map]
  · intro hle
    simp only [List.length_map]
    split
    next hfit =>
      simp only [List.length_append, List.length_map, List.length_take,
        List.length_drop]
      omega
    next hnofit =>
      simp only [List.length_drop]
      omega

/-- Witness for C3: a failing dead-letter flush over a queue of one record
with `batchSize = 1` and `maxDeadQueueSize = 1` — the batch fits back (the
queue is empty after removal), so it is requeued with the appended error. -/
theorem flushDeadLetters_failure_witness :
    (flushDeadLetters cfgTight { initState with deadLetters := [sampleDead] }
        (.error "down") 3).totalDbErrors = 1 ∧
    (flushDeadLetters cfgTight { initState with deadLetters := [sampleDead] }
        (.error "down") 3).deadLetters =
      [{ sampleDead with
          error := "queue_overflow; dead_letter_insert_failed: down" }] := by
  have h := flushDeadLetters_failure cfgTight
    { initState with deadLetters := [sampleDead] } "down" 3 rfl (by decide)
  refine ⟨h.1, ?_⟩
  rw [h.2.2.1]
  decide

/-- **C10.** An accepted admission whose body reads successfully as the
empty string stores `payload = none` in the queued Event Record — an empty
body is indistinguishable from an absent payload. -/
theorem emptyBody_payload_none (cfg : Config) (s : ApiState) (t : String)
    (now : Nat) (m p : String) (lat : ℚ)
    (h : s.pending.length < cfg.maxQueueSize) :
    (handleRequest cfg s t now m p (.ok "") lat).2 = 202 ∧
    (handleRequest cfg s t now m p (.ok "") lat).1.pending =
      s.pending ++
        [{ trace_id := t, received_at := now, method := m, path := p
           payload := none }] := by
  have hno : ¬s.pending.length ≥ cfg.maxQueueSize := by omega
  constructor
  · simp only [handleRequest, hno, if_false]
  · simp only [handleRequest, hno, if_false, recordLatency_pending]
    rfl

/-- Witness for C10 at a concrete admission into an empty queue. -/
theorem emptyBody_payload_none_witness :
    (handleRequest cfgScenario initState "t" 0 "POST" "/api/v1/events"
        (.ok "") 0).2 = 202 ∧
    (handleRequest cfgScenario initState "t" 0 "POST" "/api/v1/events"
        (.ok "") 0).1.pending =
      [{ trace_id := "t", received_at := 0, method := "POST"
         path := "/api/v1/events", payload := none }] :=
  emptyBody_payload_none cfgScenario initState "t" 0 "POST" "/api/v1/events" 0
    (by decide)

/-- **C4.** Every admission attempt increments `totalReceived` exactly once
regardless of outcome; and from empty queues with `maxQueueSize = 2`,
admitting 3 well-formed requests with no flush in between yields exactly 2
records in the Record Queue, 1 record in the Dead-Letter Queue with error
`"queue_overflow"`, `totalRejected = 1`, `totalAccepted = 2`, and
`totalReceived = 3`. -/
theorem admission_counts :
    (∀ (cfg : Config) (s : ApiState) (t : String) (now : Nat) (m p : String)
        (body : Except String String) (lat : ℚ),
      (handleRequest cfg s t now m p body lat).1.totalReceived =
        s.totalReceived + 1) ∧
    ((run cfgScenario initState evsScenario).pending.length = 2 ∧
     (run cfgScenario initState evsScenario).deadLetters.map
        (fun d => d.error) = ["queue_overflow"] ∧
     (run cfgScenario initState evsScenario).totalRejected = 1 ∧
     (run cfgScenario initState evsScenario).totalAccepted = 2 ∧
     (run cfgScenario initState evsScenario).totalReceived = 3) := by
  constructor
  · intro cfg s t now m p body lat
    cases body with
    | error cause =>
      simp only [handleRequest, recordLatency_totalReceived,
        enqueueDeadLetter_totalReceived]
    | ok text =>
      simp only [handleRequest]
      split
      · simp only [recordLatency_totalReceived, enqueueDeadLetter_totalReceived]
      · simp only [recordLatency_totalReceived]
  · exact ⟨by rfl, by rfl, by rfl, by rfl, by rfl⟩

/-- Witness for C4: a single admission into the empty state bumps
`totalReceived` to 1. -/
theorem admission_counts_witness :
    (handleRequest cfgScenario initState "t" 0 "POST" "/api/v1/events"
        (.ok "x") 0).1.totalReceived = 0 + 1 :=
  admission_counts.1 cfgScenario initState "t" 0 "POST" "/api/v1/events"
    (.ok "x") 0

/-- **C7.** `record(value)` adds the value to the running sum and 1 to the
running count, and increments exactly the first bucket (in increasing bound
order) whose upper bound is ≥ the value — ties going to the smaller
bucket — or the overflow slot when the value exceeds the largest bound
10000; in particular recording `[1, 3, 1000, 50000]` yields one count each
in bucket(1), bucket(5), bucket(1000) and the overflow slot. -/
theorem recordLatency_spec (v : ℚ) (s : ApiState) :
    (recordLatency v s).latencySumMs = s.latencySumMs + v ∧
    (recordLatency v s).latencyCount = s.latencyCount + 1 ∧
    ((∃ i, i < latencyBucketsMs.length ∧ v ≤ latencyBucketsMs.getD i 0 ∧
        (∀ j, j < i → ¬v ≤ latencyBucketsMs.getD j 0) ∧
        (recordLatency v s).latencyHistogram =
          s.latencyHistogram.set i (s.latencyHistogram.getD i 0 + 1)) ∨
      (10000 < v ∧
        (recordLatency v s).latencyHistogram =
          s.latencyHistogram.set latencyBucketsMs.length
            (s.latencyHistogram.getD latencyBucketsMs.length 0 + 1))) ∧
    histScenario.latencyHistogram = [1, 0, 1, 0, 0, 0, 0, 0, 0, 1, 0, 0, 0, 1] ∧
    histScenario.latencyCount = 4 := by
  refine ⟨rfl, rfl, ?_, by rfl, by rfl⟩
  rcases findIdx_char (fun limit => decide (v ≤ limit)) 0 latencyBucketsMs with
    ⟨h1, h2⟩ | ⟨h1, h2, h3⟩
  · refine Or.inr ⟨?_, ?_⟩
    · have h12 := h2 12 (by decide)
      have hle : ¬v ≤ (10000 : ℚ) := by
        intro hle
        have hd : decide (v ≤ latencyBucketsMs.getD 12 0) = false := h12
        rw [show latencyBucketsMs.getD 12 0 = (10000 : ℚ) from rfl] at hd
        simp [hle] at hd
      exact lt_of_not_le hle
    · simp only [recordLatency]
      rw [h1]
  · refine Or.inl ⟨latencyBucketsMs.findIdx (fun limit => decide (v ≤ limit)),
      h1, of_decide_eq_true h2, fun j hj => of_decide_eq_false (h3 j hj), rfl⟩

/-- Witness for C7 at value 3 and the initial state. -/
theorem recordLatency_spec_witness :
    (recordLatency 3 initState).latencyCount = 0 + 1 :=
  (recordLatency_spec 3 initState).2.1

theorem percentileGo_notFound (hist : List Nat) (i0 c0 : Nat) (th : ℚ)
    (h : ∀ k, k < hist.length → ¬th ≤ ((c0 + (hist.take (k + 1)).sum : Nat) : ℚ)) :
    percentileGo hist i0 c0 th = latencyBucketsMs.getLastD 0 := by
  induction hist generalizing i0 c0 with
  | nil => rfl
  | cons h0 rest ih =>
    simp only [percentileGo]
    rw [if_neg (by simpa using h 0 (by simp))]
    apply ih
    intro k hk
    have hh := h (k + 1) (by simpa using Nat.succ_lt_succ hk)
    simpa [List.take_succ_cons, Nat.add_assoc] using hh

theorem percentileGo_found (hist : List Nat) (k i0 c0 : Nat) (th : ℚ)
    (hk : k < hist.length)
    (hreach : th ≤ ((c0 + (hist.take (k + 1)).sum : Nat) : ℚ))
    (hmin : ∀ j, j < k → ¬th ≤ ((c0 + (hist.take (j + 1)).sum : Nat) : ℚ)) :
    percentileGo hist i0 c0 th =
      latencyBucketsMs.getD (i0 + k) (latencyBucketsMs.getLastD 0) := by
  induction hist generalizing k i0 c0 with
  | nil => exact absurd hk (Nat.not_lt_zero k)
  | cons h0 rest ih =>
    cases k with
    | zero =>
      simp only [percentileGo]
      rw [if_pos (by simpa using hreach)]
      rfl
    | succ k =>
      simp only [percentileGo]
      rw [if_neg (by simpa using hmin 0 (Nat.succ_pos k))]
      have hres := ih k (i0 + 1) (c0 + h0) (by simpa using hk)
        (by simpa [List.take_succ_cons, Nat.add_assoc] using hreach)
        (fun j hj => by
          simpa [List.take_succ_cons, Nat.add_assoc] using
            hmin (j + 1) (by omega))
      rw [hres]
      congr 1
      omega

theorem latencyBuckets_mono :
    ∀ i, i < 13 → ∀ j, j < 13 → i ≤ j →
      latencyBucketsMs.getD i 0 ≤ latencyBucketsMs.getD j 0 := by decide

theorem sum_take_mono (l : List Nat) (a b : Nat) (hab : a ≤ b) :
    (l.take a).sum ≤ (l.take b).sum := by
  have hb : b = a + (b - a) := by omega
  rw [hb, List.take_add, List.sum_append]
  exact Nat.le_add_right _ _

theorem sum_take_le_sum (l : List Nat) (m : Nat) : (l.take m).sum ≤ l.sum := by
  conv_rhs => rw [← List.take_append_drop m l]
  rw [List.sum_append]
  exact Nat.le_add_right _ _

theorem latencyBuckets_getD_default :
    ∀ i, i < 13 → latencyBucketsMs.getD i (latencyBucketsMs.getLastD 0) =
      latencyBucketsMs.getD i 0 := by decide

/-- **C6 (amended).** With no samples, `percentile` returns 0.  Otherwise,
when some finite bucket's cumulative count reaches `p * totalCount`,
`percentile p` returns the bound of the first (hence smallest-bound) such
bucket; but when the threshold is reached only in the overflow slot — or
not at all — it returns the largest finite bound 10000 even though that
bound's own cumulative count is below the threshold. -/
theorem percentile_amended (p : ℚ) (s : ApiState)
    (hlen : s.latencyHistogram.length = latencyBucketsMs.length + 1) :
    (s.latencyCount = 0 → percentile p s = 0) ∧
    (s.latencyCount ≠ 0 →
      ((∃ i, i < latencyBucketsMs.length ∧
          (s.latencyCount : ℚ) * p ≤ (cumCount s.latencyHistogram i : ℚ) ∧
          (∀ j, j < i →
            ¬(s.latencyCount : ℚ) * p ≤ (cumCount s.latencyHistogram j : ℚ)) ∧
          percentile p s = latencyBucketsMs.getD i 0 ∧
          (∀ j, j < latencyBucketsMs.length →
            (s.latencyCount : ℚ) * p ≤ (cumCount s.latencyHistogram j : ℚ) →
            latencyBucketsMs.getD i 0 ≤ latencyBucketsMs.getD j 0)) ∨
        ((∀ i, i < latencyBucketsMs.length →
            ¬(s.latencyCount : ℚ) * p ≤ (cumCount s.latencyHistogram i : ℚ)) ∧
          percentile p s = 10000))) := by
  have hblen : latencyBucketsMs.length = 13 := rfl
  constructor
  · intro h0
    unfold percentile
    rw [if_pos h0]
  · intro hc
    have hpe : percentile p s =
        percentileGo s.latencyHistogram 0 0 ((s.latencyCount : ℚ) * p) := by
      unfold percentile
      rw [if_neg hc]
    have hcast : ∀ k, ((0 + (s.latencyHistogram.take (k + 1)).sum : Nat) : ℚ) =
        (cumCount s.latencyHistogram k : ℚ) := by
      intro k
      simp [cumCount]
    by_cases hex : ∃ k,
        (s.latencyCount : ℚ) * p ≤ (cumCount s.latencyHistogram k : ℚ)
    · have hP13 : (s.latencyCount : ℚ) * p ≤
          (cumCount s.latencyHistogram 13 : ℚ) := by
        obtain ⟨k, hk⟩ := hex
        refine le_trans hk ?_
        have h1 : cumCount s.latencyHistogram k ≤
            cumCount s.latencyHistogram 13 := by
          unfold cumCount
          calc (s.latencyHistogram.take (k + 1)).sum
              ≤ s.latencyHistogram.sum := sum_take_le_sum _ _
            _ = (s.latencyHistogram.take (13 + 1)).sum := by
                rw [List.take_of_length_le (by omega)]
        exact_mod_cast h1
      have hk0le : Nat.find hex ≤ 13 := Nat.find_min' hex hP13
      have hk0P := Nat.find_spec hex
      have hk0min : ∀ j, j < Nat.find hex →
          ¬(s.latencyCount : ℚ) * p ≤ (cumCount s.latencyHistogram j : ℚ) :=
        fun j hj => Nat.find_min hex hj
      by_cases hlt : Nat.find hex < 13
      · refine Or.inl ⟨Nat.find hex, by omega, hk0P, hk0min, ?_, ?_⟩
        · rw [hpe, percentileGo_found s.latencyHistogram (Nat.find hex) 0 0 _
            (by omega) (by rw [hcast]; exact hk0P)
            (fun j hj => by rw [hcast]; exact hk0min j hj)]
          rw [Nat.zero_add]
          exact latencyBuckets_getD_default (Nat.find hex) hlt
        · intro j hj hPj
          have hk0j : Nat.find hex ≤ j := Nat.find_min' hex hPj
          exact latencyBuckets_mono (Nat.find hex) hlt j (by omega) hk0j
      · have h13 : Nat.find hex = 13 := by omega
        refine Or.inr ⟨fun i hi => ?_, ?_⟩
        · exact hk0min i (by omega)
        · rw [hpe, percentileGo_found s.latencyHistogram 13 0 0 _
            (by omega) (by rw [hcast]; exact hP13)
            (fun j hj => by rw [hcast]; exact hk0min j (by omega))]
          rfl
    · have hnall : ∀ k,
          ¬(s.latencyCount : ℚ) * p ≤ (cumCount s.latencyHistogram k : ℚ) :=
        fun k hk => hex ⟨k, hk⟩
      refine Or.inr ⟨fun i hi => hnall i, ?_⟩
      rw [hpe, percentileGo_notFound s.latencyHistogram 0 0 _
        (fun k hk => by rw [hcast]; exact hnall k)]
      rfl

/-- **C6 (counterexample).** After recording the single sample 50000 — which
lands in the overflow slot — `percentile 1` returns 10000, yet no finite
bucket (10000 included) has cumulative count ≥ `1 * totalCount = 1`: the
value returned is not "the smallest bucket bound whose cumulative count up
to and including that bucket is ≥ p·totalCount", because no such bound
exists while the function still returns 10000. -/
theorem percentile_claim_false : ¬percentileClaimedSpec 1 overflowSample := by
  unfold percentileClaimedSpec
  rw [if_neg (by decide)]
  rintro ⟨i, hi, hpe, hcum, hmin⟩
  have hhist : overflowSample.latencyHistogram =
      [0, 0, 0, 0, 0, 0, 0, 0, 0, 0, 0, 0, 0, 1] := rfl
  have hcount : overflowSample.latencyCount = 1 := rfl
  rw [hhist, hcount] at hcum
  have hblen : latencyBucketsMs.length = 13 := rfl
  rw [hblen] at hi
  have hzero : cumCount [0, 0, 0, 0, 0, 0, 0, 0, 0, 0, 0, 0, 0, 1] i = 0 := by
    interval_cases i <;> rfl
  rw [hzero] at hcum
  norm_num at hcum

/-- Witness for the amended C6 at `p = 1` over the §8 scenario histogram,
discharging the histogram-length hypothesis. -/
theorem percentile_amended_witness :
    (histScenario.latencyCount = 0 → percentile 1 histScenario = 0) ∧
    (histScenario.latencyCount ≠ 0 →
      ((∃ i, i < latencyBucketsMs.length ∧
          (histScenario.latencyCount : ℚ) * 1 ≤
            (cumCount histScenario.latencyHistogram i : ℚ) ∧
          (∀ j, j < i →
            ¬(histScenario.latencyCount : ℚ) * 1 ≤
              (cumCount histScenario.latencyHistogram j : ℚ)) ∧
          percentile 1 histScenario = latencyBucketsMs.getD i 0 ∧
          (∀ j, j < latencyBucketsMs.length →
            (histScenario.latencyCount : ℚ) * 1 ≤
              (cumCount histScenario.latencyHistogram j : ℚ) →
            latencyBucketsMs.getD i 0 ≤ latencyBucketsMs.getD j 0)) ∨
        ((∀ i, i < latencyBucketsMs.length →
            ¬(histScenario.latencyCount : ℚ) * 1 ≤
              (cumCount histScenario.latencyHistogram i : ℚ)) ∧
          percentile 1 histScenario = 10000))) :=
  percentile_amended 1 histScenario rfl
